import Mathlib

/-!
Provider function `resource_name_from_self_link`: a shallow embedding of `google/functions/element_from_self_link.go` and
`google/functions/resource_name_from_self_link.go`.

Modelling conventions.

* A Go `string` is a Lean `String`; the regular-expression engine works on its
  list of runes (`String.data`).  Offsets are counted in runes, not bytes: for
  the valid UTF-8 text Terraform hands to a provider function every match
  boundary is a rune boundary, and `ExpandString` slices the subject with the
  same offsets `FindAllStringSubmatchIndex` produced, so the unit cancels out.
* `resp *function.RunResponse` is mutated in place in Go; here every function
  takes the response and returns the updated one.
* The pieces of `terraform-plugin-framework` (`diag`, `function`) and of Go's
  `regexp` package that the two files call are modelled by the definitions
  below, named after the library functions they stand for.
-/

namespace Functions

/-! ## `diag`: diagnostics -/

/-- Severity of a diagnostic (`diag.Severity`). -/
inductive Severity where
  | SeverityInvalid
  | SeverityError
  | SeverityWarning
  deriving DecidableEq, Repr

/-- One diagnostic: severity, summary, detail and, for the argument diagnostics
built by `NewArgumentErrorDiagnostic` / `NewArgumentWarningDiagnostic`, the
position of the function argument it is attached to. -/
structure Diagnostic where
  Severity : Severity
  Summary : String
  Detail : String
  FunctionArgument : Option Int
  deriving DecidableEq, Repr

/-- The collection `diag.Diagnostics`, a slice of diagnostics. -/
abbrev Diagnostics := List Diagnostic

/-- Go `Diagnostics.Contains`: some recorded diagnostic is equal to `d`. -/
def Diagnostics.Contains (diags : Diagnostics) (d : Diagnostic) : Bool :=
  diags.any (fun x => decide (x = d))

/-- Go `Diagnostics.Append`: adds the given diagnostics one by one, skipping
any that the collection already contains. -/
def Diagnostics.Append (diags : Diagnostics) : List Diagnostic → Diagnostics
  | [] => diags
  | d :: ds =>
    Diagnostics.Append (if Diagnostics.Contains diags d then diags else diags ++ [d]) ds

/-- Go `Diagnostics.HasError`: some recorded diagnostic has error severity. -/
def Diagnostics.HasError (diags : Diagnostics) : Bool :=
  diags.any (fun x => decide (x.Severity = Severity.SeverityError))

/-- Go `diag.NewArgumentErrorDiagnostic`. -/
def NewArgumentErrorDiagnostic (position : Int) (summary detail : String) : Diagnostic :=
  { Severity := Severity.SeverityError, Summary := summary, Detail := detail,
    FunctionArgument := some position }

/-- Go `diag.NewArgumentWarningDiagnostic`. -/
def NewArgumentWarningDiagnostic (position : Int) (summary detail : String) : Diagnostic :=
  { Severity := Severity.SeverityWarning, Summary := summary, Detail := detail,
    FunctionArgument := some position }

/-- Go `Diagnostics.AddArgumentError`. -/
def Diagnostics.AddArgumentError (diags : Diagnostics) (position : Int)
    (summary detail : String) : Diagnostics :=
  Diagnostics.Append diags [NewArgumentErrorDiagnostic position summary detail]

/-- Go `Diagnostics.AddArgumentWarning`. -/
def Diagnostics.AddArgumentWarning (diags : Diagnostics) (position : Int)
    (summary detail : String) : Diagnostics :=
  Diagnostics.Append diags [NewArgumentWarningDiagnostic position summary detail]

/-- The warnings among the recorded diagnostics. -/
def Diagnostics.Warnings (diags : Diagnostics) : List Diagnostic :=
  diags.filter (fun x => decide (x.Severity = Severity.SeverityWarning))

/-- The errors among the recorded diagnostics. -/
def Diagnostics.Errors (diags : Diagnostics) : List Diagnostic :=
  diags.filter (fun x => decide (x.Severity = Severity.SeverityError))

/-! ## `function`: request and response -/

/-- The value held by the result of a function whose definition declares
`Return: function.StringReturn{}`: unknown until it is set. -/
inductive StringValue where
  | Unknown
  | Known (s : String)
  deriving DecidableEq, Repr

/-- The `function.ResultData` of a string-returning function. -/
structure ResultData where
  value : StringValue
  deriving DecidableEq, Repr

/-- Go `ResultData.Set` with a Go `string`: the conversion into the string
result type cannot fail, so the value is stored and no diagnostic is
returned. -/
def ResultData.Set (_d : ResultData) (value : String) : ResultData × Diagnostics :=
  ({ value := StringValue.Known value }, [])

/-- The `function.RunResponse`: diagnostics and result. -/
structure RunResponse where
  Diagnostics : Diagnostics
  Result : ResultData
  deriving DecidableEq, Repr

/-- The `function.ArgumentsData` of a request, seen through the one method the
code calls: `GetArgument position` gives the string written into the target
variable (`none` when the target is left untouched) and the diagnostics the
framework returns for that load. -/
structure ArgumentsData where
  GetArgument : Nat → Option String × Diagnostics

/-- The `function.RunRequest`. -/
structure RunRequest where
  Arguments : ArgumentsData

/-- The response the framework hands to `Run`: no diagnostics, result unknown. -/
def RunResponse.fresh : RunResponse :=
  { Diagnostics := [], Result := { value := StringValue.Unknown } }

/-- The request of a call `resource_name_from_self_link(s)`: loading argument 0
stores `s` and reports nothing. -/
def RunRequest.ofString (s : String) : RunRequest :=
  { Arguments := { GetArgument := fun _ => (some s, []) } }

/-! ## `regexp/syntax`: the fragment of the syntax tree the pattern uses -/

/-- Parsed regular expressions (the operators of `regexp/syntax` that occur in
the pattern of this package). -/
inductive Regex where
  /-- A literal rune (`OpLiteral`). -/
  | lit (c : Char)
  /-- A negated one-rune class `[^c]` (`OpCharClass`); it also matches a newline. -/
  | notLit (c : Char)
  /-- Greedy one-or-more repetition `r+` (`OpPlus`). -/
  | plus (r : Regex)
  /-- A capturing group with its index and name (`OpCapture`). -/
  | capture (index : Nat) (name : String) (r : Regex)
  /-- Concatenation (`OpConcat`). -/
  | concat (r1 r2 : Regex)
  /-- The assertion `$` without the multi-line flag: end of text (`OpEndText`). -/
  | endText
  deriving DecidableEq, Repr

/-- Go `Regexp.NumSubexp`: the number of capturing groups. -/
def Regex.numSubexp : Regex → Nat
  | Regex.lit _ => 0
  | Regex.notLit _ => 0
  | Regex.plus r => Regex.numSubexp r
  | Regex.capture _ _ r => Regex.numSubexp r + 1
  | Regex.concat r1 r2 => Regex.numSubexp r1 + Regex.numSubexp r2
  | Regex.endText => 0

/-- The names of the capturing groups in left-to-right order. -/
def Regex.capNames : Regex → List String
  | Regex.lit _ => []
  | Regex.notLit _ => []
  | Regex.plus r => Regex.capNames r
  | Regex.capture _ name r => name :: Regex.capNames r
  | Regex.concat r1 r2 => Regex.capNames r1 ++ Regex.capNames r2
  | Regex.endText => []

/-- Go `Regexp.SubexpNames`: entry 0 stands for the whole match and is empty,
entry `i` is the name of group `i`. -/
def Regex.subexpNames (re : Regex) : List String :=
  "" :: Regex.capNames re

/-! ## `regexp`: matching -/

/-- A thread of the matcher: the input still to be read, its offset in the
subject, and the capture offsets recorded so far (`-1` for unset). -/
structure Thread where
  rest : List Char
  pos : Nat
  cap : List Int
  deriving DecidableEq, Repr

/-- The loop of a greedy `r+`: after one match of the body try the body again
first (only after progress), then leave the loop.  The outcomes are listed in
order of preference. -/
def plusLoop (step : Thread → List Thread) : Nat → Thread → List Thread
  | 0, _ => []
  | fuel + 1, t =>
    (step t).flatMap fun u =>
      (if t.pos < u.pos then plusLoop step fuel u else []) ++ [u]

/-- All ways of matching `re` at the thread's position, in the order of
preference of Go's leftmost-first (Perl-like) semantics: the head of the list,
if any, is the match the engine reports. -/
def matchHere : Regex → Thread → List Thread
  | Regex.lit c, t =>
    match t.rest with
    | [] => []
    | x :: xs => if x = c then [{ rest := xs, pos := t.pos + 1, cap := t.cap }] else []
  | Regex.notLit c, t =>
    match t.rest with
    | [] => []
    | x :: xs => if x = c then [] else [{ rest := xs, pos := t.pos + 1, cap := t.cap }]
  | Regex.plus r, t => plusLoop (matchHere r) (t.rest.length + 1) t
  | Regex.capture index _ r, t =>
    (matchHere r { rest := t.rest, pos := t.pos, cap := t.cap.set (2 * index) (t.pos : Int) }).map
      fun u => { rest := u.rest, pos := u.pos, cap := u.cap.set (2 * index + 1) (u.pos : Int) }
  | Regex.concat r1 r2, t => (matchHere r1 t).flatMap (matchHere r2)
  | Regex.endText, t =>
    match t.rest with
    | [] => [t]
    | _ :: _ => []

/-- One attempt to match `re` starting exactly at offset `pos`, where `rest` is
the subject from `pos` on: the capture offsets of the preferred match, with
the bounds of the whole match in entries 0 and 1. -/
def matchAt (re : Regex) (rest : List Char) (pos : Nat) : Option (List Int) :=
  match matchHere re
      { rest := rest, pos := pos,
        cap := (List.replicate (2 * (Regex.numSubexp re + 1)) (-1 : Int)).set 0 (pos : Int) } with
  | [] => none
  | u :: _ => some (u.cap.set 1 (u.pos : Int))

/-- The unanchored search: the match with the left-most start at or after
`pos`. -/
def searchFrom (re : Regex) : List Char → Nat → Option (List Int)
  | [], pos => matchAt re [] pos
  | x :: xs, pos =>
    match matchAt re (x :: xs) pos with
    | some m => some m
    | none => searchFrom re xs (pos + 1)

/-- Go `Regexp.doExecute` on a string, searching from offset `pos`. -/
def doExecute (re : Regex) (s : List Char) (pos : Nat) : Option (List Int) :=
  searchFrom re (s.drop pos) pos

/-- Go `Regexp.allMatches`: the successive non-overlapping matches.  The loop
state is the search offset `pos`, the number `i` of matches delivered and the
end `prevMatchEnd` of the previous match; `fuel` bounds the iterations (every
iteration moves `pos` forward). -/
def allMatches (re : Regex) (s : List Char) (n : Nat) :
    Nat → Nat → Nat → Int → List (List Int)
  | 0, _, _, _ => []
  | fuel + 1, pos, i, prevMatchEnd =>
    if i < n ∧ pos ≤ s.length then
      match doExecute re s pos with
      | none => []
      | some m =>
        let m0 := m.getD 0 (-1)
        let m1 := m.getD 1 (-1)
        let empty := decide (m1 = (pos : Int))
        let accept := !(empty && decide (m0 = prevMatchEnd))
        let pos1 := if empty then (if pos < s.length then pos + 1 else s.length + 1) else m1.toNat
        if accept then m :: allMatches re s n fuel pos1 (i + 1) m1
        else allMatches re s n fuel pos1 i m1
    else []

/-- Go `Regexp.FindAllStringSubmatchIndex` of the compiled `re`: a negative
`n` asks for all matches. -/
def findAllStringSubmatchIndex (re : Regex) (s : String) (n : Int) : List (List Int) :=
  let n1 := if n < 0 then s.data.length + 1 else n.toNat
  allMatches re s.data n1 (s.data.length + 2) 0 0 (-1)

/-! ## `regexp`: template expansion -/

/-- The test `unicode.IsLetter(r) || unicode.IsDigit(r) || r == '_'` of Go's
`extract`.  On ASCII it is decided here; for the other runes the Unicode
tables of the Go runtime are taken as the parameter `uni`. -/
def isNameRune (uni : Char → Bool) (c : Char) : Bool :=
  c.isAlpha || c.isDigit || c == '_' || (decide (128 ≤ c.toNat) && uni c)

/-- The number-parsing loop of Go's `extract`: the value of a name made of
decimal digits, `-1` for any other name or once the value reaches `1e8`. -/
def parseNum : List Char → Int → Int
  | [], num => num
  | c :: cs, num =>
    if c < '0' ∨ '9' < c ∨ 100000000 ≤ num then -1
    else parseNum cs (num * 10 + (c.toNat : Int) - 48)

/-- Go `extract`: reads a leading `name` or `{name}` (the `$` is already
removed) and returns the name, its number (`-1` if it is not a number) and the
remaining template; `none` stands for `ok = false`. -/
def extract (uni : Char → Bool) (str : List Char) : Option (List Char × Int × List Char) :=
  match str with
  | [] => none
  | c :: cs =>
    let brace := decide (c = '{')
    let str1 := if brace then cs else c :: cs
    let i := (str1.takeWhile (isNameRune uni)).length
    if i = 0 then none
    else
      let name := str1.take i
      if brace && !(decide (str1.get? i = some '}')) then none
      else
        let j := if brace then i + 1 else i
        let num := parseNum name 0
        let num1 := if name.head? = some '0' ∧ 1 < name.length then -1 else num
        some (name, num1, str1.drop j)

/-- Go `strings.Cut(s, "$")`: the text before and after the first `$`. -/
def cutDollar : List Char → Option (List Char × List Char)
  | [] => none
  | c :: cs =>
    if c = '$' then some ([], cs)
    else
      match cutDollar cs with
      | none => none
      | some (before, after) => some (c :: before, after)

/-- The slice `src[match[2*i]:match[2*i+1]]`, provided both offsets exist and
the group took part in the match; otherwise nothing is appended. -/
def groupText (src : List Char) (mtch : List Int) (i : Nat) : Option (List Char) :=
  if 2 * i + 1 < mtch.length ∧ 0 ≤ mtch.getD (2 * i) (-1) then
    some ((src.drop (mtch.getD (2 * i) (-1)).toNat).take
      ((mtch.getD (2 * i + 1) (-1)).toNat - (mtch.getD (2 * i) (-1)).toNat))
  else none

/-- The loop over `re.subexpNames` in Go's `expand`: the text of the first
group called `name` that took part in the match. -/
def namedGroupText (src : List Char) (mtch : List Int) (name : String) :
    List String → Nat → List Char
  | [], _ => []
  | namei :: names, i =>
    if name = namei then
      match groupText src mtch i with
      | some text => text
      | none => namedGroupText src mtch name names (i + 1)
    else namedGroupText src mtch name names (i + 1)

/-- Go `Regexp.expand`: copies the template to `dst`, replacing `$name`,
`${name}` and `$1` by the text of the group and `$$` by `$`.  Every iteration
removes at least the `$` from the template, which bounds the loop. -/
def expand (uni : Char → Bool) (subexpNames : List String) (src : List Char) (mtch : List Int) :
    Nat → List Char → List Char → List Char
  | 0, dst, template => dst ++ template
  | fuel + 1, dst, template =>
    match cutDollar template with
    | none => dst ++ template
    | some (before, after) =>
      let dst1 := dst ++ before
      match after with
      | '$' :: template1 => expand uni subexpNames src mtch fuel (dst1 ++ ['$']) template1
      | _ =>
        match extract uni after with
        | none => expand uni subexpNames src mtch fuel (dst1 ++ ['$']) after
        | some (name, num, template1) =>
          let text :=
            if 0 ≤ num then (groupText src mtch num.toNat).getD []
            else namedGroupText src mtch (String.mk name) subexpNames 0
          expand uni subexpNames src mtch fuel (dst1 ++ text) template1

/-- Go `Regexp.ExpandString` of a compiled expression with the given group
names. -/
def expandString (uni : Char → Bool) (subexpNames : List String)
    (dst template src : String) (mtch : List Int) : String :=
  String.mk (expand uni subexpNames src.data mtch (template.data.length + 1) dst.data template.data)

/-- A compiled `*regexp.Regexp`, seen through the two methods the code calls. -/
structure Regexp where
  FindAllStringSubmatchIndex : String → Int → List (List Int)
  ExpandString : String → String → String → List Int → String

/-- Go `regexp.MustCompile`, applied to the parsed expression. -/
def MustCompile (uni : Char → Bool) (re : Regex) : Regexp :=
  { FindAllStringSubmatchIndex := findAllStringSubmatchIndex re,
    ExpandString := expandString uni (Regex.subexpNames re) }

/-! ## `element_from_self_link.go` -/

/-- The argument error `GetElement` records when nothing matches. -/
def noMatchError (input pattern : String) : Diagnostic :=
  NewArgumentErrorDiagnostic 0 "No project id is present in the input string"
    ("The input string \"" ++ input ++ "\" doesn\x27t contain the expected pattern \""
      ++ pattern ++ "\".")

/-- The argument warning `GetElement` records when more than one match is found. -/
def ambiguousMatchWarning (input pattern : String) : Diagnostic :=
  NewArgumentWarningDiagnostic 0 "Ambiguous input string could contain more than one project id"
    ("The input string \"" ++ input ++ "\" contains more than one match for the pattern \""
      ++ pattern ++ "\". Terraform will use the first found match.")

/-- Go `GetElement`: returns the extracted element together with the updated
response. -/
def GetElement (input : String) (regex : Regexp) (template pattern : String)
    (_req : RunRequest) (resp : RunResponse) : String × RunResponse :=
  let submatches := regex.FindAllStringSubmatchIndex input (-1)
  if submatches.length = 0 then
    let diags := Diagnostics.AddArgumentError resp.Diagnostics 0
      "No project id is present in the input string"
      ("The input string \"" ++ input ++ "\" doesn\x27t contain the expected pattern \""
        ++ pattern ++ "\".")
    let set := ResultData.Set resp.Result ""
    ("", { Diagnostics := Diagnostics.Append diags set.2, Result := set.1 })
  else
    let resp1 : RunResponse :=
      if 1 < submatches.length then
        { resp with
          Diagnostics := Diagnostics.AddArgumentWarning resp.Diagnostics 0
            "Ambiguous input string could contain more than one project id"
            ("The input string \"" ++ input
              ++ "\" contains more than one match for the pattern \""
              ++ pattern ++ "\". Terraform will use the first found match.") }
      else resp
    let submatch := submatches.headD []
    (regex.ExpandString "" template input submatch, resp1)

/-! ## `resource_name_from_self_link.go` -/

/-- The parse of the pattern `/(?P<ResourceName>[^/]+)$`. -/
def resourceNameRegex : Regex :=
  Regex.concat (Regex.lit '/')
    (Regex.concat (Regex.capture 1 "ResourceName" (Regex.plus (Regex.notLit '/')))
      Regex.endText)

/-- Go `ResourceNameFromSelfLinkFunction.Run`. -/
def Run (uni : Char → Bool) (req : RunRequest) (resp : RunResponse) : RunResponse :=
  let loaded := req.Arguments.GetArgument 0
  let arg0 := loaded.1.getD ""
  let resp1 : RunResponse := { resp with Diagnostics := Diagnostics.Append resp.Diagnostics loaded.2 }
  if Diagnostics.HasError resp1.Diagnostics then resp1
  else
    let regex := MustCompile uni resourceNameRegex
    let template := "$ResourceName"
    let pattern := "resourceType/\x7bname\x7d$"
    let got := GetElement arg0 regex template pattern req resp1
    let resourceName := got.1
    let resp2 := got.2
    if Diagnostics.HasError resp2.Diagnostics then resp2
    else
      let set := ResultData.Set resp2.Result resourceName
      { Diagnostics := Diagnostics.Append resp2.Diagnostics set.2, Result := set.1 }

/-- The body of `Run` with the call of `GetElement` replaced by a call of an
arbitrary function `getElement` of the same type.  `Run` is `RunWith GetElement`;
a path of `Run` that gives the same response for every `getElement` is a path
on which `GetElement` is not called. -/
def RunWith
    (getElement : String → Regexp → String → String → RunRequest → RunResponse
      → String × RunResponse)
    (uni : Char → Bool) (req : RunRequest) (resp : RunResponse) : RunResponse :=
  let loaded := req.Arguments.GetArgument 0
  let arg0 := loaded.1.getD ""
  let resp1 : RunResponse := { resp with Diagnostics := Diagnostics.Append resp.Diagnostics loaded.2 }
  if Diagnostics.HasError resp1.Diagnostics then resp1
  else
    let regex := MustCompile uni resourceNameRegex
    let template := "$ResourceName"
    let pattern := "resourceType/\x7bname\x7d$"
    let got := getElement arg0 regex template pattern req resp1
    let resourceName := got.1
    let resp2 := got.2
    if Diagnostics.HasError resp2.Diagnostics then resp2
    else
      let set := ResultData.Set resp2.Result resourceName
      { Diagnostics := Diagnostics.Append resp2.Diagnostics set.2, Result := set.1 }

/-- A call `resource_name_from_self_link(s)` as the framework issues it: `Run`
on a fresh response with `s` as argument 0. -/
def runOn (uni : Char → Bool) (s : String) : RunResponse :=
  Run uni (RunRequest.ofString s) RunResponse.fresh

/-! ## The matcher on the resource-name pattern -/



theorem plusLoop_notLit_nil (fuel : Nat) (pos : Nat) (cap : List Int) :
    plusLoop (matchHere (Regex.notLit '/')) fuel { rest := [], pos := pos, cap := cap } = [] := by
  cases fuel <;> simp [plusLoop, matchHere]

theorem plusLoop_notLit_cons (fuel : Nat) (x : Char) (xs : List Char) (pos : Nat) (cap : List Int) :
    plusLoop (matchHere (Regex.notLit '/')) (fuel + 1) { rest := x :: xs, pos := pos, cap := cap }
      = if x = '/' then []
        else plusLoop (matchHere (Regex.notLit '/')) fuel { rest := xs, pos := pos + 1, cap := cap }
              ++ [{ rest := xs, pos := pos + 1, cap := cap }] := by
  by_cases h : x = '/' <;> simp [plusLoop, matchHere, h]

/-- The threads of `[^/]+` that reach the end of the text. -/
theorem plusLoop_notLit_atEnd (rest : List Char) :
    ∀ (fuel pos : Nat) (cap : List Int), rest.length ≤ fuel →
      ((plusLoop (matchHere (Regex.notLit '/')) fuel { rest := rest, pos := pos, cap := cap }).map
          (fun u => ({ rest := u.rest, pos := u.pos, cap := u.cap.set 3 (u.pos : Int) } : Thread))).flatMap
        (matchHere Regex.endText)
      = if rest ≠ [] ∧ '/' ∉ rest then
          [{ rest := [], pos := pos + rest.length, cap := cap.set 3 ((pos + rest.length : Nat) : Int) }]
        else [] := by
  induction rest with
  | nil => intro fuel pos cap _; simp [plusLoop_notLit_nil]
  | cons x xs ih =>
    intro fuel pos cap hf
    obtain ⟨f, rfl⟩ : ∃ f, fuel = f + 1 := ⟨fuel - 1, by simp at hf; omega⟩
    have hf1 : xs.length ≤ f := by simp at hf; omega
    rw [plusLoop_notLit_cons]
    by_cases hx : x = '/'
    · simp [hx]
    · have hx1 : ¬ '/' = x := fun h => hx h.symm
      have e : pos + 1 + xs.length = pos + (x :: xs).length := by simp; omega
      simp only [hx, if_false, List.map_append, List.flatMap_append, ih f (pos + 1) cap hf1, e]
      cases xs with
      | nil => simp [matchHere, hx1]
      | cons y ys => simp [matchHere, hx1]

theorem matchHere_concat (a b : Regex) (t : Thread) :
    matchHere (Regex.concat a b) t = (matchHere a t).flatMap (matchHere b) := rfl

theorem matchHere_capture (index : Nat) (name : String) (r : Regex) (t : Thread) :
    matchHere (Regex.capture index name r) t
      = (matchHere r { rest := t.rest, pos := t.pos, cap := t.cap.set (2 * index) (t.pos : Int) }).map
          fun u => { rest := u.rest, pos := u.pos, cap := u.cap.set (2 * index + 1) (u.pos : Int) } := rfl

theorem matchHere_plus (r : Regex) (t : Thread) :
    matchHere (Regex.plus r) t = plusLoop (matchHere r) (t.rest.length + 1) t := rfl

theorem matchHere_lit_cons (c x : Char) (xs : List Char) (pos : Nat) (cap : List Int) :
    matchHere (Regex.lit c) { rest := x :: xs, pos := pos, cap := cap }
      = if x = c then [{ rest := xs, pos := pos + 1, cap := cap }] else [] := rfl

theorem matchHere_lit_nil (c : Char) (pos : Nat) (cap : List Int) :
    matchHere (Regex.lit c) { rest := [], pos := pos, cap := cap } = [] := rfl

/-- The pattern at a `/`: the threads that match the whole pattern. -/
theorem matchHere_resourceName_slash (n : List Char) (pos : Nat) (cap : List Int) :
    matchHere resourceNameRegex { rest := '/' :: n, pos := pos, cap := cap }
      = if n ≠ [] ∧ '/' ∉ n then
          [{ rest := [], pos := pos + 1 + n.length,
             cap := (cap.set 2 ((pos + 1 : Nat) : Int)).set 3 ((pos + 1 + n.length : Nat) : Int) }]
        else [] := by
  have h := plusLoop_notLit_atEnd n (n.length + 1) (pos + 1)
    (cap.set 2 ((pos + 1 : Nat) : Int)) (Nat.le_succ _)
  rw [resourceNameRegex, matchHere_concat, matchHere_lit_cons, if_pos rfl, List.flatMap_cons,
    List.flatMap_nil, List.append_nil, matchHere_concat, matchHere_capture, matchHere_plus]
  exact h

theorem matchAt_nil (pos : Nat) : matchAt resourceNameRegex [] pos = none := by
  rw [matchAt, resourceNameRegex, matchHere_concat, matchHere_lit_nil]; rfl

theorem matchAt_other (x : Char) (xs : List Char) (pos : Nat) (hx : x ≠ '/') :
    matchAt resourceNameRegex (x :: xs) pos = none := by
  rw [matchAt, resourceNameRegex, matchHere_concat, matchHere_lit_cons, if_neg hx]; rfl

theorem matchAt_slash (n : List Char) (pos : Nat) :
    matchAt resourceNameRegex ('/' :: n) pos
      = if n ≠ [] ∧ '/' ∉ n then
          some [(pos : Int), ((pos + 1 + n.length : Nat) : Int), ((pos + 1 : Nat) : Int),
            ((pos + 1 + n.length : Nat) : Int)]
        else none := by
  rw [matchAt, matchHere_resourceName_slash]
  by_cases h : n ≠ [] ∧ '/' ∉ n
  · rw [if_pos h, if_pos h]; rfl
  · rw [if_neg h, if_neg h]

/-- The offsets of the one match in `p ++ "/" ++ n`. -/
theorem searchFrom_found (p n : List Char) (hn : n ≠ []) (hs : '/' ∉ n) :
    ∀ pos : Nat, searchFrom resourceNameRegex (p ++ '/' :: n) pos
      = some [((pos + p.length : Nat) : Int), ((pos + p.length + 1 + n.length : Nat) : Int),
          ((pos + p.length + 1 : Nat) : Int), ((pos + p.length + 1 + n.length : Nat) : Int)] := by
  induction p with
  | nil =>
    intro pos
    cases n with
    | nil => exact absurd rfl hn
    | cons y ys =>
      rw [List.nil_append, searchFrom, matchAt_slash, if_pos ⟨hn, hs⟩]
      rfl
  | cons c p ih =>
    intro pos
    have hnone : matchAt resourceNameRegex (c :: (p ++ '/' :: n)) pos = none := by
      by_cases hc : c = '/'
      · subst hc
        rw [matchAt_slash, if_neg]
        intro h
        exact h.2 (by simp)
      · exact matchAt_other c _ pos hc
    rw [List.cons_append, searchFrom, hnone, ih (pos + 1)]
    have e : pos + 1 + p.length = pos + (c :: p).length := by simp; omega
    rw [e]

theorem searchFrom_none (rest : List Char)
    (h : ∀ p n : List Char, rest = p ++ '/' :: n → n ≠ [] → '/' ∈ n) :
    ∀ pos : Nat, searchFrom resourceNameRegex rest pos = none := by
  induction rest with
  | nil => intro pos; rw [searchFrom, matchAt_nil]
  | cons c xs ih =>
    intro pos
    have hnone : matchAt resourceNameRegex (c :: xs) pos = none := by
      by_cases hc : c = '/'
      · subst hc
        rw [matchAt_slash, if_neg]
        intro hh
        exact hh.2 (h [] xs rfl hh.1)
      · exact matchAt_other c _ pos hc
    rw [searchFrom, hnone]
    exact ih (fun p n e hn => h (c :: p) n (by rw [e]; rfl) hn) (pos + 1)

/-- Splitting a list at its last `/`. -/
theorem exists_last_slash (l : List Char) (h : '/' ∈ l) :
    ∃ p n : List Char, l = p ++ '/' :: n ∧ '/' ∉ n := by
  induction l with
  | nil => simp at h
  | cons c xs ih =>
    by_cases hxs : '/' ∈ xs
    · obtain ⟨p, n, e, hn⟩ := ih hxs
      exact ⟨c :: p, n, by rw [e]; rfl, hn⟩
    · have hc : c = '/' := by
        rcases List.mem_cons.mp h with h1 | h1
        · exact h1.symm
        · exact absurd h1 hxs
      exact ⟨[], xs, by rw [hc]; rfl, hxs⟩

/-- A list has a final non-empty segment exactly when it contains `/` and does
not end in `/`. -/
theorem hasName_iff (l : List Char) :
    (∃ p n : List Char, l = p ++ '/' :: n ∧ n ≠ [] ∧ '/' ∉ n)
      ↔ ('/' ∈ l ∧ ¬ ∃ q : List Char, l = q ++ ['/']) := by
  constructor
  · rintro ⟨p, n, rfl, hn, hs⟩
    refine ⟨by simp, ?_⟩
    rintro ⟨q, hq⟩
    rcases List.eq_nil_or_concat n with h | ⟨m, a, h⟩
    · exact hn h
    · subst h
      have e : (p ++ '/' :: m) ++ [a] = q ++ ['/'] := by simpa using hq
      have ha : a = '/' := by
        have := (List.append_inj' e rfl).2
        simpa using this
      exact hs (by simp [ha])
  · rintro ⟨hm, hl⟩
    obtain ⟨p, n, rfl, hs⟩ := exists_last_slash l hm
    refine ⟨p, n, rfl, ?_, hs⟩
    rintro rfl
    exact hl ⟨p, rfl⟩

theorem allMatches_succ (re : Regex) (s : List Char) (n fuel pos i : Nat) (prevMatchEnd : Int) :
    allMatches re s n (fuel + 1) pos i prevMatchEnd
      = if i < n ∧ pos ≤ s.length then
          match doExecute re s pos with
          | none => []
          | some m =>
            if !(decide (m.getD 1 (-1) = (pos : Int)) && decide (m.getD 0 (-1) = prevMatchEnd)) then
              m :: allMatches re s n fuel
                (if decide (m.getD 1 (-1) = (pos : Int)) then
                  (if pos < s.length then pos + 1 else s.length + 1) else (m.getD 1 (-1)).toNat)
                (i + 1) (m.getD 1 (-1))
            else
              allMatches re s n fuel
                (if decide (m.getD 1 (-1) = (pos : Int)) then
                  (if pos < s.length then pos + 1 else s.length + 1) else (m.getD 1 (-1)).toNat)
                i (m.getD 1 (-1))
        else [] := rfl

/-- The pattern has exactly one match in `p ++ "/" ++ n`. -/
theorem findAll_found (s : String) (p n : List Char) (hs : s.data = p ++ '/' :: n)
    (hn : n ≠ []) (hno : '/' ∉ n) :
    findAllStringSubmatchIndex resourceNameRegex s (-1)
      = [[((p.length : Nat) : Int), ((p.length + 1 + n.length : Nat) : Int),
          ((p.length + 1 : Nat) : Int), ((p.length + 1 + n.length : Nat) : Int)]] := by
  have hlen : s.data.length = p.length + 1 + n.length := by rw [hs]; simp; omega
  have h0 : doExecute resourceNameRegex s.data 0
      = some [((p.length : Nat) : Int), ((p.length + 1 + n.length : Nat) : Int),
          ((p.length + 1 : Nat) : Int), ((p.length + 1 + n.length : Nat) : Int)] := by
    rw [doExecute, List.drop_zero, hs, searchFrom_found p n hn hno 0]
    simp
  have h1 : doExecute resourceNameRegex s.data (p.length + 1 + n.length) = none := by
    rw [doExecute, ← hlen, List.drop_length, searchFrom, matchAt_nil]
  have hneg : ((-1 : Int) < 0) := by decide
  rw [findAllStringSubmatchIndex]
  simp only [hneg, if_true]
  rw [allMatches_succ, if_pos ⟨Nat.succ_pos _, Nat.zero_le _⟩, h0]
  have hm1 : ¬ (((p.length + 1 + n.length : Nat) : Int) = ((0 : Nat) : Int)) := by
    intro h; have := Int.ofNat.inj h; omega
  simp only [List.getD_cons_zero, List.getD_cons_succ, hm1, decide_False, Bool.false_and,
    Bool.not_false, if_true, Bool.false_eq_true, if_false, Int.toNat_ofNat]
  rw [hlen, allMatches_succ, if_pos ⟨by omega, by rw [hlen]⟩, h1]

theorem findAll_none (s : String)
    (h : ¬ ∃ p n : List Char, s.data = p ++ '/' :: n ∧ n ≠ [] ∧ '/' ∉ n) :
    findAllStringSubmatchIndex resourceNameRegex s (-1) = [] := by
  have h0 : doExecute resourceNameRegex s.data 0 = none := by
    rw [doExecute, List.drop_zero]
    apply searchFrom_none
    intro p n e hn
    by_contra hc
    exact h ⟨p, n, e, hn, hc⟩
  have hneg : ((-1 : Int) < 0) := by decide
  rw [findAllStringSubmatchIndex]
  simp only [hneg, if_true]
  rw [allMatches_succ, h0]
  simp


theorem subexpNames_resourceName :
    Regex.subexpNames resourceNameRegex = ["", "ResourceName"] := rfl

theorem extract_resourceName (uni : Char → Bool) :
    extract uni ['R', 'e', 's', 'o', 'u', 'r', 'c', 'e', 'N', 'a', 'm', 'e']
      = some (['R', 'e', 's', 'o', 'u', 'r', 'c', 'e', 'N', 'a', 'm', 'e'], -1, []) := by
  rfl

theorem namedGroupText_resourceName (src : List Char) (mtch : List Int) :
    namedGroupText src mtch "ResourceName" ["", "ResourceName"] 0
      = (groupText src mtch 1).getD [] := by
  have h1 : ¬ ("ResourceName" = "") := by decide
  rw [namedGroupText, if_neg h1, namedGroupText, if_pos rfl]
  cases groupText src mtch 1 <;> rfl

theorem expand_resourceName (uni : Char → Bool) (src : List Char) (mtch : List Int) :
    expandString uni ["", "ResourceName"] "" "$ResourceName" (String.mk src) mtch
      = String.mk ((groupText src mtch 1).getD []) := by
  have h : expand uni ["", "ResourceName"] src mtch 14 []
      ['$', 'R', 'e', 's', 'o', 'u', 'r', 'c', 'e', 'N', 'a', 'm', 'e']
      = (groupText src mtch 1).getD [] := by
    rw [expand]
    simp only [cutDollar, if_true, extract_resourceName]
    have hneg : ¬ ((0 : Int) ≤ -1) := by decide
    have hs : (String.mk ['R', 'e', 's', 'o', 'u', 'r', 'c', 'e', 'N', 'a', 'm', 'e']) = "ResourceName" := rfl
    simp only [hneg, if_false, hs, namedGroupText_resourceName, List.nil_append]
    rw [expand]
    simp [cutDollar]
  exact congrArg String.mk h

theorem groupText_found (p n : List Char) (a b : Int) :
    groupText (p ++ '/' :: n) [a, b, ((p.length + 1 : Nat) : Int),
      ((p.length + 1 + n.length : Nat) : Int)] 1 = some n := by
  have hc : (2 * 1 + 1 < ([a, b, ((p.length + 1 : Nat) : Int),
      ((p.length + 1 + n.length : Nat) : Int)] : List Int).length
      ∧ (0 : Int) ≤ ([a, b, ((p.length + 1 : Nat) : Int),
      ((p.length + 1 + n.length : Nat) : Int)] : List Int).getD (2 * 1) (-1)) := by
    refine ⟨by simp, ?_⟩
    simp only [Nat.mul_one, List.getD_cons_succ, List.getD_cons_zero]
    exact Int.ofNat_nonneg _
  rw [groupText, if_pos hc]
  simp only [Nat.mul_one, List.getD_cons_succ, List.getD_cons_zero, Int.toNat_ofNat]
  have e : p.length + 1 = (p ++ ['/']).length := by simp
  have e2 : p ++ '/' :: n = (p ++ ['/']) ++ n := by simp
  rw [e2, e, List.drop_left, Nat.add_sub_cancel_left, List.take_length]

/-- The run on an input with a final non-empty segment. -/
theorem runOn_found (uni : Char → Bool) (s : String) (p n : List Char)
    (hs : s.data = p ++ '/' :: n) (hn : n ≠ []) (hno : '/' ∉ n) :
    runOn uni s = { Diagnostics := [], Result := { value := StringValue.Known (String.mk n) } } := by
  have hf := findAll_found s p n hs hn hno
  have hsrc : s = String.mk (p ++ '/' :: n) := by rw [← hs]
  have hx := expand_resourceName uni (p ++ '/' :: n)
    [((p.length : Nat) : Int), ((p.length + 1 + n.length : Nat) : Int),
      ((p.length + 1 : Nat) : Int), ((p.length + 1 + n.length : Nat) : Int)]
  rw [groupText_found] at hx
  simp only [runOn, Run, RunRequest.ofString, RunResponse.fresh, Option.getD_some,
    Diagnostics.Append, Diagnostics.HasError, List.any_nil, Bool.false_eq_true, if_false,
    GetElement, MustCompile, hf, List.length_singleton, Nat.lt_irrefl, List.headD_cons,
    ResultData.Set, subexpNames_resourceName]
  simp only [Nat.succ_ne_zero, one_ne_zero, if_false, List.any_nil, Bool.false_eq_true]
  rw [hsrc, hx]
  rfl

/-- The run on an input without a final non-empty segment. -/
theorem runOn_none (uni : Char → Bool) (s : String)
    (h : ¬ ∃ p n : List Char, s.data = p ++ '/' :: n ∧ n ≠ [] ∧ '/' ∉ n) :
    runOn uni s = { Diagnostics := [noMatchError s "resourceType/\x7bname\x7d$"],
                    Result := { value := StringValue.Known "" } } := by
  have hf := findAll_none s h
  simp only [runOn, Run, RunRequest.ofString, RunResponse.fresh, Option.getD_some,
    Diagnostics.Append, Diagnostics.HasError, List.any_nil, Bool.false_eq_true, if_false,
    GetElement, MustCompile, hf, List.length_nil, if_true, Diagnostics.AddArgumentError,
    Diagnostics.Contains, ResultData.Set, List.nil_append, noMatchError]
  simp [NewArgumentErrorDiagnostic]

theorem data_ne_nil_of_ne_empty (n : String) (hn : n ≠ "") : n.data ≠ [] := by
  intro h
  exact hn (String.ext h)

theorem data_append_slash (p n : String) : (p ++ "/" ++ n).data = p.data ++ '/' :: n.data := by
  simp [String.data_append]

/-- Every run ends in one of two responses, according to the shape of the
input. -/
theorem runOn_cases (uni : Char → Bool) (s : String) :
    (('/' ∈ s.data ∧ s.data.getLast? ≠ some '/') ∧
        ∃ p n : String, s = p ++ "/" ++ n ∧ n ≠ "" ∧ '/' ∉ n.data ∧
          findAllStringSubmatchIndex resourceNameRegex s (-1)
            = [[((p.data.length : Nat) : Int), ((p.data.length + 1 + n.data.length : Nat) : Int),
                ((p.data.length + 1 : Nat) : Int),
                ((p.data.length + 1 + n.data.length : Nat) : Int)]] ∧
          runOn uni s = { Diagnostics := [], Result := { value := StringValue.Known n } })
    ∨ (('/' ∉ s.data ∨ s.data.getLast? = some '/') ∧
        findAllStringSubmatchIndex resourceNameRegex s (-1) = [] ∧
        runOn uni s = { Diagnostics := [noMatchError s "resourceType/\x7bname\x7d$"],
                        Result := { value := StringValue.Known "" } }) := by
  by_cases h : ∃ p n : List Char, s.data = p ++ '/' :: n ∧ n ≠ [] ∧ '/' ∉ n
  · left
    have hc := (hasName_iff s.data).mp h
    refine ⟨⟨hc.1, fun hl => hc.2 (List.getLast?_eq_some_iff.mp hl)⟩, ?_⟩
    obtain ⟨p, n, hs, hn, hno⟩ := h
    refine ⟨String.mk p, String.mk n, String.ext (by rw [hs, data_append_slash]), ?_, hno,
      findAll_found s p n hs hn hno, runOn_found uni s p n hs hn hno⟩
    intro he
    exact hn (congrArg String.data he)
  · right
    refine ⟨?_, findAll_none s h, runOn_none uni s h⟩
    by_contra hc
    push_neg at hc
    exact h ((hasName_iff s.data).mpr
      ⟨hc.1, fun hq => hc.2 (List.getLast?_eq_some_iff.mpr hq)⟩)


theorem findAll_nil_or_singleton (s : String) :
    findAllStringSubmatchIndex resourceNameRegex s (-1) = [] ∨
      ∃ m : List Int, findAllStringSubmatchIndex resourceNameRegex s (-1) = [m] := by
  rcases runOn_cases (fun _ => false) s with ⟨_, p, n, _, _, _, hf, _⟩ | ⟨_, hf, _⟩
  · exact Or.inr ⟨_, hf⟩
  · exact Or.inl hf

theorem warnings_append_error (diags : Diagnostics) (d : Diagnostic)
    (hd : d.Severity = Severity.SeverityError) :
    Diagnostics.Warnings (Diagnostics.Append diags [d]) = Diagnostics.Warnings diags := by
  rw [Diagnostics.Append]
  by_cases hc : Diagnostics.Contains diags d = true
  · rw [if_pos hc]; rfl
  · rw [if_neg hc]
    simp [Diagnostics.Append, Diagnostics.Warnings, List.filter_append, hd]

/-- `Run` records no warning of its own, whatever request and response it is
given. -/
theorem run_adds_no_warning (uni : Char → Bool) (req : RunRequest) (resp : RunResponse) :
    Diagnostics.Warnings (Run uni req resp).Diagnostics
      = Diagnostics.Warnings
          (Diagnostics.Append resp.Diagnostics (req.Arguments.GetArgument 0).2) := by
  rw [Run]
  simp only []
  split
  · rfl
  · rcases findAll_nil_or_singleton ((req.Arguments.GetArgument 0).1.getD "") with hf | ⟨m, hf⟩
    · simp only [GetElement, MustCompile, hf, List.length_nil, if_true, ResultData.Set,
        Diagnostics.AddArgumentError]
      split
      · exact warnings_append_error _ _ rfl
      · exact warnings_append_error _ _ rfl
    · simp only [GetElement, MustCompile, hf, List.length_singleton, one_ne_zero, if_false,
        Nat.lt_irrefl, ResultData.Set, Diagnostics.Append]
      split <;> rfl

theorem hasError_noMatch (s pattern : String) :
    Diagnostics.HasError [noMatchError s pattern] = true := rfl

/-! ## The claims about `resource_name_from_self_link` -/

/-- C1: for every string `p` and every non-empty string `n` without `/`, the run
of `resource_name_from_self_link` on `p ++ "/" ++ n` sets the result to exactly
`n` and records no diagnostic, hence no error. -/
theorem C1_last_segment_returned (uni : Char → Bool) (p n : String)
    (hn : n ≠ "") (hno : '/' ∉ n.data) :
    runOn uni (p ++ "/" ++ n)
        = { Diagnostics := [], Result := { value := StringValue.Known n } } ∧
    Diagnostics.HasError (runOn uni (p ++ "/" ++ n)).Diagnostics = false := by
  have h := runOn_found uni (p ++ "/" ++ n) p.data n.data (data_append_slash p n)
    (data_ne_nil_of_ne_empty n hn) hno
  rw [h]
  exact ⟨rfl, rfl⟩

/-- The valid self link, the truncated self link, the valid id and the
repetitive input of the acceptance test, through C1. -/
theorem C1_last_segment_returned_witness :
    (runOn (fun _ => false)
      "https://www.googleapis.com/compute/v1/projects/my-project/zones/us-central1-c/instances/tf-test-my-resource"
      = { Diagnostics := [], Result := { value := StringValue.Known "tf-test-my-resource" } }) ∧
    (runOn (fun _ => false)
      "https://www.googleapis.com/compute/v1/projects/my-project/zones/us-central1-c"
      = { Diagnostics := [], Result := { value := StringValue.Known "us-central1-c" } }) ∧
    (runOn (fun _ => false)
      "projects/my-project/zones/us-central1-c/instances/tf-test-my-resource"
      = { Diagnostics := [], Result := { value := StringValue.Known "tf-test-my-resource" } }) ∧
    (runOn (fun _ => false)
      "https://www.googleapis.com/compute/v1/projects/my-project/zones/us-central1-c/instances/not-this-1/instances/not-this-2/instances/tf-test-my-resource"
      = { Diagnostics := [], Result := { value := StringValue.Known "tf-test-my-resource" } }) := by
  have h1 := C1_last_segment_returned (fun _ => false)
    "https://www.googleapis.com/compute/v1/projects/my-project/zones/us-central1-c/instances"
    "tf-test-my-resource" (by decide) (by decide)
  have h2 := C1_last_segment_returned (fun _ => false)
    "https://www.googleapis.com/compute/v1/projects/my-project/zones" "us-central1-c"
    (by decide) (by decide)
  have h3 := C1_last_segment_returned (fun _ => false)
    "projects/my-project/zones/us-central1-c/instances" "tf-test-my-resource"
    (by decide) (by decide)
  have h4 := C1_last_segment_returned (fun _ => false)
    "https://www.googleapis.com/compute/v1/projects/my-project/zones/us-central1-c/instances/not-this-1/instances/not-this-2/instances"
    "tf-test-my-resource" (by decide) (by decide)
  exact ⟨h1.1, h2.1, h3.1, h4.1⟩

/-- C2: for every input without `/` (the empty string included) the pattern has
zero matches, the run records an error diagnostic (the no-match argument error
and nothing else) and the result value is the empty string. -/
theorem C2_no_slash_fails (uni : Char → Bool) (s : String) (h : '/' ∉ s.data) :
    findAllStringSubmatchIndex resourceNameRegex s (-1) = [] ∧
    Diagnostics.HasError (runOn uni s).Diagnostics = true ∧
    (runOn uni s).Diagnostics = [noMatchError s "resourceType/\x7bname\x7d$"] ∧
    (runOn uni s).Result = { value := StringValue.Known "" } := by
  rcases runOn_cases uni s with ⟨⟨hm, _⟩, _⟩ | ⟨_, hf, hr⟩
  · exact absurd hm h
  · rw [hr]
    exact ⟨hf, rfl, rfl, rfl⟩

/-- The invalid input of the acceptance test and the empty string, through C2. -/
theorem C2_no_slash_fails_witness :
    ('/' ∉ "tf-test-my-resource".data ∧
      findAllStringSubmatchIndex resourceNameRegex "tf-test-my-resource" (-1) = [] ∧
      Diagnostics.HasError (runOn (fun _ => false) "tf-test-my-resource").Diagnostics = true ∧
      (runOn (fun _ => false) "tf-test-my-resource").Result = { value := StringValue.Known "" }) ∧
    ('/' ∉ "".data ∧
      Diagnostics.HasError (runOn (fun _ => false) "").Diagnostics = true ∧
      (runOn (fun _ => false) "").Result = { value := StringValue.Known "" }) := by
  have h1 := C2_no_slash_fails (fun _ => false) "tf-test-my-resource" (by decide)
  have h2 := C2_no_slash_fails (fun _ => false) "" (by decide)
  exact ⟨⟨by decide, h1.1, h1.2.1, h1.2.2.2⟩, ⟨by decide, h2.2.1, h2.2.2.2⟩⟩

/-- C3: the code breaks the claim at `"projects/my-project/"`.  The input
contains `/`, so by the claim (and by the note in the acceptance test, which
counts only the empty string and the strings without `/` as invalid) the run
should succeed with everything after the last `/`; the pattern has no match in
it, and the run records the no-match error and sets the result to the empty
string. -/
theorem C3_trailing_slash_fails :
    '/' ∈ "projects/my-project/".data ∧
    findAllStringSubmatchIndex resourceNameRegex "projects/my-project/" (-1) = [] ∧
    Diagnostics.HasError (runOn (fun _ => false) "projects/my-project/").Diagnostics = true ∧
    (runOn (fun _ => false) "projects/my-project/").Diagnostics
      = [noMatchError "projects/my-project/" "resourceType/\x7bname\x7d$"] ∧
    (runOn (fun _ => false) "projects/my-project/").Result = { value := StringValue.Known "" } := by
  decide

/-- C4: in every input the pattern has at most one non-overlapping match, so the
branch of `GetElement` that records the ambiguous-match warning is never taken
from `Run`: no run of `resource_name_from_self_link` records a warning, and on
any request and response `Run` leaves the warnings as the argument loading
left them. -/
theorem C4_never_ambiguous (uni : Char → Bool) (s : String) :
    (findAllStringSubmatchIndex resourceNameRegex s (-1)).length ≤ 1 ∧
    ¬ (1 < ((MustCompile uni resourceNameRegex).FindAllStringSubmatchIndex s (-1)).length) ∧
    Diagnostics.Warnings (runOn uni s).Diagnostics = [] ∧
    (∀ d ∈ (runOn uni s).Diagnostics, d.Severity ≠ Severity.SeverityWarning) ∧
    ∀ (req : RunRequest) (resp : RunResponse),
      Diagnostics.Warnings (Run uni req resp).Diagnostics
        = Diagnostics.Warnings
            (Diagnostics.Append resp.Diagnostics (req.Arguments.GetArgument 0).2) := by
  rcases runOn_cases uni s with ⟨_, p, n, _, _, _, hf, hr⟩ | ⟨_, hf, hr⟩
  · rw [hr]
    refine ⟨by rw [hf]; exact Nat.le_refl 1, ?_, rfl, by simp, run_adds_no_warning uni⟩
    show ¬ (1 < (findAllStringSubmatchIndex resourceNameRegex s (-1)).length)
    rw [hf]; exact Nat.lt_irrefl 1
  · rw [hr]
    refine ⟨by rw [hf]; exact Nat.zero_le 1, ?_, rfl, ?_, run_adds_no_warning uni⟩
    · show ¬ (1 < (findAllStringSubmatchIndex resourceNameRegex s (-1)).length)
      rw [hf]; exact Nat.not_succ_le_zero 1
    · intro d hd
      rw [List.mem_singleton.mp hd]
      simp [noMatchError, NewArgumentErrorDiagnostic]

/-- The repetitive input of the acceptance test, through C4. -/
theorem C4_never_ambiguous_witness :
    (findAllStringSubmatchIndex resourceNameRegex
      "https://www.googleapis.com/compute/v1/projects/my-project/zones/us-central1-c/instances/not-this-1/instances/not-this-2/instances/tf-test-my-resource"
      (-1)).length ≤ 1 ∧
    Diagnostics.Warnings (runOn (fun _ => false)
      "https://www.googleapis.com/compute/v1/projects/my-project/zones/us-central1-c/instances/not-this-1/instances/not-this-2/instances/tf-test-my-resource").Diagnostics
      = [] :=
  ⟨(C4_never_ambiguous (fun _ => false)
      "https://www.googleapis.com/compute/v1/projects/my-project/zones/us-central1-c/instances/not-this-1/instances/not-this-2/instances/tf-test-my-resource").1,
   (C4_never_ambiguous (fun _ => false)
      "https://www.googleapis.com/compute/v1/projects/my-project/zones/us-central1-c/instances/not-this-1/instances/not-this-2/instances/tf-test-my-resource").2.2.1⟩

theorem contains_eq_false_of_not_mem (diags : Diagnostics) (d : Diagnostic) (h : d ∉ diags) :
    Diagnostics.Contains diags d = false := by
  rw [Diagnostics.Contains, List.any_eq_false]
  intro x hx
  simp only [decide_eq_true_eq]
  intro hxd
  exact h (hxd ▸ hx)

/-! ## The claims about `GetElement` -/

theorem contains_eq_true_of_mem (diags : Diagnostics) (d : Diagnostic) (h : d ∈ diags) :
    Diagnostics.Contains diags d = true := by
  rw [Diagnostics.Contains, List.any_eq_true]
  exact ⟨d, h, by simp⟩

/-- C5, as stated, fails: on a response that already holds the no-match error
for this input and pattern (the response a first call of `GetElement` leaves
behind), a call with zero matches adds no diagnostic at all. -/
theorem C5_counterexample :
    ((MustCompile (fun _ => false) resourceNameRegex).FindAllStringSubmatchIndex
      "tf-test-my-resource" (-1)).length = 0 ∧
    (GetElement "tf-test-my-resource" (MustCompile (fun _ => false) resourceNameRegex)
      "$ResourceName" "resourceType/\x7bname\x7d$" (RunRequest.ofString "tf-test-my-resource")
      RunResponse.fresh).2
      = { Diagnostics := [noMatchError "tf-test-my-resource" "resourceType/\x7bname\x7d$"],
          Result := { value := StringValue.Known "" } } ∧
    (GetElement "tf-test-my-resource" (MustCompile (fun _ => false) resourceNameRegex)
      "$ResourceName" "resourceType/\x7bname\x7d$" (RunRequest.ofString "tf-test-my-resource")
      { Diagnostics := [noMatchError "tf-test-my-resource" "resourceType/\x7bname\x7d$"],
        Result := { value := StringValue.Known "" } }).2.Diagnostics
      = [noMatchError "tf-test-my-resource" "resourceType/\x7bname\x7d$"] ∧
    Diagnostics.Errors
      (GetElement "tf-test-my-resource" (MustCompile (fun _ => false) resourceNameRegex)
        "$ResourceName" "resourceType/\x7bname\x7d$" (RunRequest.ofString "tf-test-my-resource")
        { Diagnostics := [noMatchError "tf-test-my-resource" "resourceType/\x7bname\x7d$"],
          Result := { value := StringValue.Known "" } }).2.Diagnostics
      = Diagnostics.Errors [noMatchError "tf-test-my-resource" "resourceType/\x7bname\x7d$"] := by
  decide

/-- C5 (amended): whenever the regex has zero matches in the input, `GetElement`
returns the empty string and sets the result to the empty string; to a
response that does not hold it yet it adds exactly one diagnostic, an argument
error for position 0 with the summary "No project id is present in the input
string" and a detail that quotes the input and the pattern description
verbatim, and a response that already holds that diagnostic keeps its
diagnostics as they are.  Either way the error is recorded afterwards and no
warning is added. -/
theorem C5_zero_matches (regex : Regexp) (template pattern input : String)
    (req : RunRequest) (resp : RunResponse)
    (hzero : (regex.FindAllStringSubmatchIndex input (-1)).length = 0) :
    (GetElement input regex template pattern req resp).1 = "" ∧
    (GetElement input regex template pattern req resp).2.Result
      = { value := StringValue.Known "" } ∧
    (noMatchError input pattern ∉ resp.Diagnostics →
      (GetElement input regex template pattern req resp).2.Diagnostics
        = resp.Diagnostics ++
            [{ Severity := Severity.SeverityError,
               Summary := "No project id is present in the input string",
               Detail := "The input string \"" ++ input
                 ++ "\" doesn\x27t contain the expected pattern \"" ++ pattern ++ "\".",
               FunctionArgument := some 0 }] ∧
      Diagnostics.Errors (GetElement input regex template pattern req resp).2.Diagnostics
        = Diagnostics.Errors resp.Diagnostics ++ [noMatchError input pattern]) ∧
    (noMatchError input pattern ∈ resp.Diagnostics →
      (GetElement input regex template pattern req resp).2.Diagnostics = resp.Diagnostics) ∧
    noMatchError input pattern ∈ (GetElement input regex template pattern req resp).2.Diagnostics ∧
    Diagnostics.HasError (GetElement input regex template pattern req resp).2.Diagnostics = true ∧
    Diagnostics.Warnings (GetElement input regex template pattern req resp).2.Diagnostics
      = Diagnostics.Warnings resp.Diagnostics ∧
    ∃ a b c : String, (noMatchError input pattern).Detail
      = a ++ ("\"" ++ input ++ "\"") ++ b ++ ("\"" ++ pattern ++ "\"") ++ c := by
  have hdetail : ∃ a b c : String, (noMatchError input pattern).Detail
      = a ++ ("\"" ++ input ++ "\"") ++ b ++ ("\"" ++ pattern ++ "\"") ++ c := by
    refine ⟨"The input string ", " doesn\x27t contain the expected pattern ", ".", ?_⟩
    apply String.ext
    simp [noMatchError, NewArgumentErrorDiagnostic, String.data_append]
  by_cases hnew : noMatchError input pattern ∈ resp.Diagnostics
  · have hc := contains_eq_true_of_mem resp.Diagnostics (noMatchError input pattern) hnew
    rw [noMatchError] at hc
    have hg : GetElement input regex template pattern req resp
        = ("", { Diagnostics := resp.Diagnostics,
                 Result := { value := StringValue.Known "" } }) := by
      simp only [GetElement, hzero, if_true, Diagnostics.AddArgumentError, hc, ResultData.Set,
        Diagnostics.Append]
    rw [hg]
    refine ⟨rfl, rfl, fun h => absurd hnew h, fun _ => rfl, hnew, ?_, rfl, hdetail⟩
    simp only [Diagnostics.HasError, List.any_eq_true, decide_eq_true_eq]
    exact ⟨_, hnew, rfl⟩
  · have hc := contains_eq_false_of_not_mem resp.Diagnostics (noMatchError input pattern) hnew
    rw [noMatchError] at hc
    have hg : GetElement input regex template pattern req resp
        = ("", { Diagnostics := resp.Diagnostics ++ [noMatchError input pattern],
                 Result := { value := StringValue.Known "" } }) := by
      simp only [GetElement, hzero, if_true, Diagnostics.AddArgumentError, hc, ResultData.Set,
        Diagnostics.Append, noMatchError, Bool.false_eq_true, if_false]
    rw [hg]
    refine ⟨rfl, rfl, fun _ => ⟨rfl, ?_⟩, fun h => absurd h hnew, by simp, ?_, ?_, hdetail⟩
    · simp [Diagnostics.Errors, noMatchError, NewArgumentErrorDiagnostic]
    · simp [Diagnostics.HasError, noMatchError, NewArgumentErrorDiagnostic]
    · simp [Diagnostics.Warnings, noMatchError, NewArgumentErrorDiagnostic]

/-- The invalid input of the acceptance test with the compiled resource-name
pattern, through the amended C5: on a fresh response the error becomes the only
diagnostic, and on the response that this leaves behind nothing is added. -/
theorem C5_zero_matches_witness :
    (GetElement "tf-test-my-resource" (MustCompile (fun _ => false) resourceNameRegex)
      "$ResourceName" "resourceType/\x7bname\x7d$" (RunRequest.ofString "tf-test-my-resource")
      RunResponse.fresh).1 = "" ∧
    (GetElement "tf-test-my-resource" (MustCompile (fun _ => false) resourceNameRegex)
      "$ResourceName" "resourceType/\x7bname\x7d$" (RunRequest.ofString "tf-test-my-resource")
      RunResponse.fresh).2.Diagnostics
      = [{ Severity := Severity.SeverityError,
           Summary := "No project id is present in the input string",
           Detail := "The input string \"tf-test-my-resource\" doesn\x27t contain the expected pattern \"resourceType/\x7bname\x7d$\".",
           FunctionArgument := some 0 }] ∧
    (GetElement "tf-test-my-resource" (MustCompile (fun _ => false) resourceNameRegex)
      "$ResourceName" "resourceType/\x7bname\x7d$" (RunRequest.ofString "tf-test-my-resource")
      { Diagnostics := [noMatchError "tf-test-my-resource" "resourceType/\x7bname\x7d$"],
        Result := { value := StringValue.Known "" } }).2.Diagnostics
      = [noMatchError "tf-test-my-resource" "resourceType/\x7bname\x7d$"] := by
  have h := C5_zero_matches (MustCompile (fun _ => false) resourceNameRegex)
    "$ResourceName" "resourceType/\x7bname\x7d$" "tf-test-my-resource"
    (RunRequest.ofString "tf-test-my-resource") RunResponse.fresh (by decide)
  have h2 := C5_zero_matches (MustCompile (fun _ => false) resourceNameRegex)
    "$ResourceName" "resourceType/\x7bname\x7d$" "tf-test-my-resource"
    (RunRequest.ofString "tf-test-my-resource")
    { Diagnostics := [noMatchError "tf-test-my-resource" "resourceType/\x7bname\x7d$"],
      Result := { value := StringValue.Known "" } } (by decide)
  exact ⟨h.1, (h.2.2.1 (by decide)).1, h2.2.2.2.1 (by decide)⟩

/-- C6, as stated, fails: on a response that already holds the ambiguous-match
warning for this input and pattern (the response a first call of `GetElement`
leaves behind), a call with two matches adds no diagnostic at all. -/
theorem C6_counterexample :
    ((MustCompile (fun _ => false)
        (Regex.concat (Regex.lit '/') (Regex.capture 1 "x" (Regex.plus (Regex.notLit '/'))))
      ).FindAllStringSubmatchIndex "/a/b" (-1)).length = 2 ∧
    (GetElement "/a/b"
      (MustCompile (fun _ => false)
        (Regex.concat (Regex.lit '/') (Regex.capture 1 "x" (Regex.plus (Regex.notLit '/')))))
      "$x" "/\x7bx\x7d" (RunRequest.ofString "/a/b") RunResponse.fresh).2
      = { Diagnostics := [ambiguousMatchWarning "/a/b" "/\x7bx\x7d"],
          Result := { value := StringValue.Unknown } } ∧
    (GetElement "/a/b"
      (MustCompile (fun _ => false)
        (Regex.concat (Regex.lit '/') (Regex.capture 1 "x" (Regex.plus (Regex.notLit '/')))))
      "$x" "/\x7bx\x7d" (RunRequest.ofString "/a/b")
      { Diagnostics := [ambiguousMatchWarning "/a/b" "/\x7bx\x7d"],
        Result := { value := StringValue.Unknown } }).2.Diagnostics
      = [ambiguousMatchWarning "/a/b" "/\x7bx\x7d"] ∧
    Diagnostics.Warnings
      (GetElement "/a/b"
        (MustCompile (fun _ => false)
          (Regex.concat (Regex.lit '/') (Regex.capture 1 "x" (Regex.plus (Regex.notLit '/')))))
        "$x" "/\x7bx\x7d" (RunRequest.ofString "/a/b")
        { Diagnostics := [ambiguousMatchWarning "/a/b" "/\x7bx\x7d"],
          Result := { value := StringValue.Unknown } }).2.Diagnostics
      = Diagnostics.Warnings [ambiguousMatchWarning "/a/b" "/\x7bx\x7d"] := by
  decide

/-- C6 (amended): whenever the regex has two or more matches in the input,
`GetElement` adds exactly one diagnostic to a response that does not hold it
yet, an argument warning for position 0, and a response that already holds
that warning keeps its diagnostics as they are; either way the warning is
recorded afterwards, no error is added and the result is left as it was.  It
returns the template expanded against the first (left-most) match, which is
the value it returns when that match is the only one. -/
theorem C6_many_matches (regex : Regexp) (template pattern input : String)
    (req : RunRequest) (resp : RunResponse)
    (hmany : 2 ≤ (regex.FindAllStringSubmatchIndex input (-1)).length) :
    (ambiguousMatchWarning input pattern ∉ resp.Diagnostics →
      (GetElement input regex template pattern req resp).2.Diagnostics
        = resp.Diagnostics ++
            [{ Severity := Severity.SeverityWarning,
               Summary := "Ambiguous input string could contain more than one project id",
               Detail := "The input string \"" ++ input
                 ++ "\" contains more than one match for the pattern \"" ++ pattern
                 ++ "\". Terraform will use the first found match.",
               FunctionArgument := some 0 }] ∧
      Diagnostics.Warnings (GetElement input regex template pattern req resp).2.Diagnostics
        = Diagnostics.Warnings resp.Diagnostics ++ [ambiguousMatchWarning input pattern]) ∧
    (ambiguousMatchWarning input pattern ∈ resp.Diagnostics →
      (GetElement input regex template pattern req resp).2.Diagnostics = resp.Diagnostics) ∧
    ambiguousMatchWarning input pattern
      ∈ (GetElement input regex template pattern req resp).2.Diagnostics ∧
    (GetElement input regex template pattern req resp).2.Result = resp.Result ∧
    Diagnostics.Errors (GetElement input regex template pattern req resp).2.Diagnostics
      = Diagnostics.Errors resp.Diagnostics ∧
    Diagnostics.HasError (GetElement input regex template pattern req resp).2.Diagnostics
      = Diagnostics.HasError resp.Diagnostics ∧
    ∃ (first : List Int) (later : List (List Int)),
      regex.FindAllStringSubmatchIndex input (-1) = first :: later ∧ later ≠ [] ∧
      (GetElement input regex template pattern req resp).1
        = regex.ExpandString "" template input first ∧
      ∀ (regex1 : Regexp) (resp1 : RunResponse),
        regex1.ExpandString = regex.ExpandString →
        regex1.FindAllStringSubmatchIndex input (-1) = [first] →
        (GetElement input regex1 template pattern req resp1).1
          = (GetElement input regex template pattern req resp).1 := by
  obtain ⟨first, later, hfl, hlater⟩ :
      ∃ first later, regex.FindAllStringSubmatchIndex input (-1) = first :: later ∧ later ≠ [] := by
    cases hm : regex.FindAllStringSubmatchIndex input (-1) with
    | nil => rw [hm] at hmany; simp at hmany
    | cons first later =>
      refine ⟨first, later, rfl, ?_⟩
      rintro rfl
      rw [hm] at hmany
      simp at hmany
  have hlen0 : ¬ ((first :: later).length = 0) := by simp
  have hlen1 : 1 < (first :: later).length := by rw [← hfl]; omega
  have hone : ∀ (regex1 : Regexp) (resp1 : RunResponse),
      regex1.ExpandString = regex.ExpandString →
      regex1.FindAllStringSubmatchIndex input (-1) = [first] →
      (GetElement input regex1 template pattern req resp1).1
        = regex.ExpandString "" template input first := by
    intro regex1 resp1 he h1
    simp only [GetElement, h1, List.length_singleton, one_ne_zero, if_false, Nat.lt_irrefl,
      List.headD_cons, he]
  by_cases hnew : ambiguousMatchWarning input pattern ∈ resp.Diagnostics
  · have hc := contains_eq_true_of_mem resp.Diagnostics (ambiguousMatchWarning input pattern) hnew
    rw [ambiguousMatchWarning] at hc
    have hg : GetElement input regex template pattern req resp
        = (regex.ExpandString "" template input first,
            { Diagnostics := resp.Diagnostics, Result := resp.Result }) := by
      simp only [GetElement, hfl, hlen0, hlen1, if_true, if_false, Diagnostics.AddArgumentWarning,
        hc, Diagnostics.Append, List.headD_cons]
    rw [hg]
    exact ⟨fun h => absurd hnew h, fun _ => rfl, hnew, rfl, rfl, rfl,
      first, later, hfl, hlater, rfl, hone⟩
  · have hc := contains_eq_false_of_not_mem resp.Diagnostics
      (ambiguousMatchWarning input pattern) hnew
    rw [ambiguousMatchWarning] at hc
    have hg : GetElement input regex template pattern req resp
        = (regex.ExpandString "" template input first,
            { Diagnostics := resp.Diagnostics ++ [ambiguousMatchWarning input pattern],
              Result := resp.Result }) := by
      simp only [GetElement, hfl, hlen0, hlen1, if_true, if_false, Diagnostics.AddArgumentWarning,
        hc, Diagnostics.Append, ambiguousMatchWarning, Bool.false_eq_true, List.headD_cons]
    rw [hg]
    refine ⟨fun _ => ⟨rfl, ?_⟩, fun h => absurd h hnew, by simp, rfl, ?_, ?_,
      first, later, hfl, hlater, rfl, hone⟩
    · simp [Diagnostics.Warnings, ambiguousMatchWarning, NewArgumentWarningDiagnostic]
    · simp [Diagnostics.Errors, ambiguousMatchWarning, NewArgumentWarningDiagnostic]
    · simp [Diagnostics.HasError, ambiguousMatchWarning, NewArgumentWarningDiagnostic]

/-- The pattern `/(?P<x>[^/]+)` has two matches in `"/a/b"`, through the amended
C6: on a fresh response one warning is recorded and the first segment is
returned, and on the response that this leaves behind nothing is added. -/
theorem C6_many_matches_witness :
    (MustCompile (fun _ => false)
        (Regex.concat (Regex.lit '/') (Regex.capture 1 "x" (Regex.plus (Regex.notLit '/'))))
      ).FindAllStringSubmatchIndex "/a/b" (-1) = [[0, 2, 1, 2], [2, 4, 3, 4]] ∧
    (GetElement "/a/b"
      (MustCompile (fun _ => false)
        (Regex.concat (Regex.lit '/') (Regex.capture 1 "x" (Regex.plus (Regex.notLit '/')))))
      "$x" "/\x7bx\x7d" (RunRequest.ofString "/a/b") RunResponse.fresh).1 = "a" ∧
    (GetElement "/a/b"
      (MustCompile (fun _ => false)
        (Regex.concat (Regex.lit '/') (Regex.capture 1 "x" (Regex.plus (Regex.notLit '/')))))
      "$x" "/\x7bx\x7d" (RunRequest.ofString "/a/b") RunResponse.fresh).2.Diagnostics
      = [{ Severity := Severity.SeverityWarning,
           Summary := "Ambiguous input string could contain more than one project id",
           Detail := "The input string \"/a/b\" contains more than one match for the pattern \"/\x7bx\x7d\". Terraform will use the first found match.",
           FunctionArgument := some 0 }] ∧
    (GetElement "/a/b"
      (MustCompile (fun _ => false)
        (Regex.concat (Regex.lit '/') (Regex.capture 1 "x" (Regex.plus (Regex.notLit '/')))))
      "$x" "/\x7bx\x7d" (RunRequest.ofString "/a/b")
      { Diagnostics := [ambiguousMatchWarning "/a/b" "/\x7bx\x7d"],
        Result := { value := StringValue.Unknown } }).2.Diagnostics
      = [ambiguousMatchWarning "/a/b" "/\x7bx\x7d"] := by
  have h := C6_many_matches
    (MustCompile (fun _ => false)
      (Regex.concat (Regex.lit '/') (Regex.capture 1 "x" (Regex.plus (Regex.notLit '/')))))
    "$x" "/\x7bx\x7d" "/a/b" (RunRequest.ofString "/a/b") RunResponse.fresh (by decide)
  have h2 := C6_many_matches
    (MustCompile (fun _ => false)
      (Regex.concat (Regex.lit '/') (Regex.capture 1 "x" (Regex.plus (Regex.notLit '/')))))
    "$x" "/\x7bx\x7d" "/a/b" (RunRequest.ofString "/a/b")
    { Diagnostics := [ambiguousMatchWarning "/a/b" "/\x7bx\x7d"],
      Result := { value := StringValue.Unknown } } (by decide)
  exact ⟨by decide, by decide, (h.1 (by decide)).1, h2.2.1 (by decide)⟩

/-- C7: whenever the regex has exactly one match in the input, `GetElement` adds
no diagnostic and leaves the response it was given unchanged, and it returns
the template expanded against that match. -/
theorem C7_one_match (regex : Regexp) (template pattern input : String)
    (req : RunRequest) (resp : RunResponse)
    (hone : (regex.FindAllStringSubmatchIndex input (-1)).length = 1) :
    (GetElement input regex template pattern req resp).2 = resp ∧
    (GetElement input regex template pattern req resp).2.Diagnostics = resp.Diagnostics ∧
    ∃ sole : List Int, regex.FindAllStringSubmatchIndex input (-1) = [sole] ∧
      (GetElement input regex template pattern req resp).1
        = regex.ExpandString "" template input sole := by
  obtain ⟨sole, ho⟩ := List.length_eq_one.mp hone
  have hg : GetElement input regex template pattern req resp
      = (regex.ExpandString "" template input sole, resp) := by
    simp only [GetElement, ho, List.length_singleton, one_ne_zero, if_false, Nat.lt_irrefl,
      List.headD_cons]
  rw [hg]
  exact ⟨rfl, rfl, sole, ho, rfl⟩

/-- The valid id with the compiled resource-name pattern, on a response that
already holds a diagnostic, through C7. -/
theorem C7_one_match_witness :
    (GetElement "projects/p/zones/z/instances/my-instance"
      (MustCompile (fun _ => false) resourceNameRegex) "$ResourceName"
      "resourceType/\x7bname\x7d$" (RunRequest.ofString "projects/p/zones/z/instances/my-instance")
      { Diagnostics := [ambiguousMatchWarning "x" "y"],
        Result := { value := StringValue.Unknown } }).2
      = { Diagnostics := [ambiguousMatchWarning "x" "y"],
          Result := { value := StringValue.Unknown } } ∧
    (GetElement "projects/p/zones/z/instances/my-instance"
      (MustCompile (fun _ => false) resourceNameRegex) "$ResourceName"
      "resourceType/\x7bname\x7d$" (RunRequest.ofString "projects/p/zones/z/instances/my-instance")
      { Diagnostics := [ambiguousMatchWarning "x" "y"],
        Result := { value := StringValue.Unknown } }).1 = "my-instance" := by
  have h := C7_one_match (MustCompile (fun _ => false) resourceNameRegex) "$ResourceName"
    "resourceType/\x7bname\x7d$" "projects/p/zones/z/instances/my-instance"
    (RunRequest.ofString "projects/p/zones/z/instances/my-instance")
    { Diagnostics := [ambiguousMatchWarning "x" "y"],
      Result := { value := StringValue.Unknown } } (by decide)
  exact ⟨h.1, by decide⟩

/-! ## The outcome of a run -/

/-- C8: every run of `resource_name_from_self_link` ends in exactly one of two
outcomes: an error diagnostic is recorded and the result is the empty string,
or no error diagnostic is recorded and the result is a non-empty name.  An
error never comes with a non-empty result, and a success never with an empty
one. -/
theorem C8_two_outcomes (uni : Char → Bool) (s : String) :
    ((Diagnostics.HasError (runOn uni s).Diagnostics = true ∧
        (runOn uni s).Result = { value := StringValue.Known "" })
      ∨ (Diagnostics.HasError (runOn uni s).Diagnostics = false ∧
          ∃ name : String, name ≠ "" ∧
            (runOn uni s).Result = { value := StringValue.Known name })) ∧
    ¬ (Diagnostics.HasError (runOn uni s).Diagnostics = true ∧
        ∃ name : String, name ≠ "" ∧
          (runOn uni s).Result = { value := StringValue.Known name }) ∧
    ¬ (Diagnostics.HasError (runOn uni s).Diagnostics = false ∧
        (runOn uni s).Result = { value := StringValue.Known "" }) := by
  rcases runOn_cases uni s with ⟨_, p, n, _, hn, _, _, hr⟩ | ⟨_, _, hr⟩
  · rw [hr]
    refine ⟨Or.inr ⟨rfl, n, hn, rfl⟩, ?_, ?_⟩
    · rintro ⟨h, _⟩
      simp [Diagnostics.HasError] at h
    · rintro ⟨_, h⟩
      have h1 : n = "" := by simpa using h
      exact hn h1
  · rw [hr]
    refine ⟨Or.inl ⟨rfl, rfl⟩, ?_, ?_⟩
    · rintro ⟨_, name, hname, h⟩
      have h1 : "" = name := by simpa using h
      exact hname h1.symm
    · rintro ⟨h, _⟩
      rw [hasError_noMatch] at h
      exact absurd h (by decide)

/-- C9: a run of `resource_name_from_self_link` fails, recording the no-match
error as its only diagnostic with an empty result, if and only if the input
contains no `/` or its last character is `/`. -/
theorem C9_failure_iff (uni : Char → Bool) (s : String) :
    (Diagnostics.HasError (runOn uni s).Diagnostics = true
      ↔ ('/' ∉ s.data ∨ s.data.getLast? = some '/')) ∧
    ((runOn uni s).Diagnostics = [noMatchError s "resourceType/\x7bname\x7d$"]
      ↔ ('/' ∉ s.data ∨ s.data.getLast? = some '/')) ∧
    (('/' ∉ s.data ∨ s.data.getLast? = some '/') →
      (runOn uni s).Result = { value := StringValue.Known "" }) := by
  rcases runOn_cases uni s with ⟨⟨hm, hl⟩, p, n, _, _, _, _, hr⟩ | ⟨hc, _, hr⟩
  · have hnot : ¬ ('/' ∉ s.data ∨ s.data.getLast? = some '/') := by
      rintro (h | h)
      · exact h hm
      · exact hl h
    rw [hr]
    refine ⟨⟨fun h => by simp [Diagnostics.HasError] at h, fun h => absurd h hnot⟩,
      ⟨fun h => absurd h (by simp), fun h => absurd h hnot⟩, fun h => absurd h hnot⟩
  · rw [hr]
    exact ⟨⟨fun _ => hc, fun _ => rfl⟩, ⟨fun _ => hc, fun _ => rfl⟩, fun _ => rfl⟩

/-- The inputs `"/"` and `"projects/my-project/"` contain `/` and fail, through
C9. -/
theorem C9_failure_iff_witness :
    ('/' ∈ "/".data ∧ Diagnostics.HasError (runOn (fun _ => false) "/").Diagnostics = true) ∧
    ('/' ∈ "projects/my-project/".data ∧
      Diagnostics.HasError (runOn (fun _ => false) "projects/my-project/").Diagnostics = true) :=
  ⟨⟨by decide, (C9_failure_iff (fun _ => false) "/").1.mpr (Or.inr (by decide))⟩,
   ⟨by decide,
    (C9_failure_iff (fun _ => false) "projects/my-project/").1.mpr (Or.inr (by decide))⟩⟩

/-- C10: whenever a run of `resource_name_from_self_link` succeeds with result
`r`, the result contains no `/` and the input is `p ++ "/" ++ r` for some
string `p`, so `r` is a proper suffix of the input. -/
theorem C10_result_is_suffix (uni : Char → Bool) (s r : String)
    (hok : Diagnostics.HasError (runOn uni s).Diagnostics = false)
    (hres : (runOn uni s).Result = { value := StringValue.Known r }) :
    '/' ∉ r.data ∧ (∃ p : String, s = p ++ "/" ++ r) ∧ r.data.length < s.data.length := by
  rcases runOn_cases uni s with ⟨_, p, n, hs, _, hno, _, hr⟩ | ⟨_, _, hr⟩
  · rw [hr] at hres
    have hrn : n = r := by simpa using hres
    subst hrn
    refine ⟨hno, ⟨p, hs⟩, ?_⟩
    rw [hs, data_append_slash]
    simp
    omega
  · rw [hr, hasError_noMatch] at hok
    exact absurd hok (by decide)

/-- The valid id of the acceptance test, through C10. -/
theorem C10_result_is_suffix_witness :
    Diagnostics.HasError (runOn (fun _ => false)
      "projects/my-project/zones/us-central1-c/instances/tf-test-my-resource").Diagnostics = false ∧
    (runOn (fun _ => false)
      "projects/my-project/zones/us-central1-c/instances/tf-test-my-resource").Result
      = { value := StringValue.Known "tf-test-my-resource" } ∧
    '/' ∉ "tf-test-my-resource".data ∧
    (∃ p : String,
      "projects/my-project/zones/us-central1-c/instances/tf-test-my-resource"
        = p ++ "/" ++ "tf-test-my-resource") ∧
    "tf-test-my-resource".data.length
      < "projects/my-project/zones/us-central1-c/instances/tf-test-my-resource".data.length :=
  ⟨by decide, by decide,
    C10_result_is_suffix (fun _ => false)
      "projects/my-project/zones/us-central1-c/instances/tf-test-my-resource"
      "tf-test-my-resource" (by decide) (by decide)⟩

/-! ## Prefix invariance -/

/-- C11: prefix invariance.  If the run on `s` succeeds with result `r`, then for
every string `p` the run on `p ++ s` succeeds with the same result `r`, and so
does the run on `"/" ++ r`; if `s` contains `/` and the run on `s` fails, then
the run on `p ++ s` fails as well. -/
theorem C11_prefix_invariance (uni : Char → Bool) (s p : String) :
    (∀ r : String,
      Diagnostics.HasError (runOn uni s).Diagnostics = false →
      (runOn uni s).Result = { value := StringValue.Known r } →
        (Diagnostics.HasError (runOn uni (p ++ s)).Diagnostics = false ∧
          (runOn uni (p ++ s)).Result = { value := StringValue.Known r }) ∧
        (Diagnostics.HasError (runOn uni ("/" ++ r)).Diagnostics = false ∧
          (runOn uni ("/" ++ r)).Result = { value := StringValue.Known r })) ∧
    ('/' ∈ s.data →
      Diagnostics.HasError (runOn uni s).Diagnostics = true →
        Diagnostics.HasError (runOn uni (p ++ s)).Diagnostics = true ∧
        (runOn uni (p ++ s)).Result = { value := StringValue.Known "" }) := by
  constructor
  · intro r hok hres
    rcases runOn_cases uni s with ⟨_, q, n, hs, hn, hno, _, hr⟩ | ⟨_, _, hr⟩
    · rw [hr] at hres
      have hrn : n = r := by simpa using hres
      subst hrn
      have h1 := runOn_found uni (p ++ s) (p.data ++ q.data) n.data
        (by rw [hs]; simp [String.data_append]) (data_ne_nil_of_ne_empty n hn) hno
      have h2 := runOn_found uni ("/" ++ n) [] n.data
        (by simp [String.data_append]) (data_ne_nil_of_ne_empty n hn) hno
      rw [h1, h2]
      exact ⟨⟨rfl, rfl⟩, ⟨rfl, rfl⟩⟩
    · rw [hr, hasError_noMatch] at hok
      exact absurd hok (by decide)
  · intro hm hfail
    rcases runOn_cases uni s with ⟨_, q, n, _, _, _, _, hr⟩ | ⟨hc, _, _⟩
    · rw [hr] at hfail
      simp [Diagnostics.HasError] at hfail
    · have hlast : s.data.getLast? = some '/' := by
        rcases hc with hc | hc
        · exact absurd hm hc
        · exact hc
      obtain ⟨q, hq⟩ := List.getLast?_eq_some_iff.mp hlast
      have hlast2 : (p ++ s).data.getLast? = some '/' := by
        rw [String.data_append, hq, ← List.append_assoc]
        exact List.getLast?_concat _
      rcases runOn_cases uni (p ++ s) with ⟨⟨_, hl⟩, _⟩ | ⟨_, _, hr⟩
      · exact absurd hlast2 hl
      · rw [hr]
        exact ⟨rfl, rfl⟩

/-- The valid id of the acceptance test behind the prefix
`"https://www.googleapis.com/compute/v1/"`, and the failing input
`"projects/my-project/"` behind the same prefix, through C11. -/
theorem C11_prefix_invariance_witness :
    (Diagnostics.HasError (runOn (fun _ => false)
        "projects/my-project/zones/us-central1-c/instances/tf-test-my-resource").Diagnostics
        = false ∧
      (runOn (fun _ => false)
        "projects/my-project/zones/us-central1-c/instances/tf-test-my-resource").Result
        = { value := StringValue.Known "tf-test-my-resource" } ∧
      (runOn (fun _ => false)
        "https://www.googleapis.com/compute/v1/projects/my-project/zones/us-central1-c/instances/tf-test-my-resource").Result
        = { value := StringValue.Known "tf-test-my-resource" } ∧
      (runOn (fun _ => false) "/tf-test-my-resource").Result
        = { value := StringValue.Known "tf-test-my-resource" }) ∧
    ('/' ∈ "projects/my-project/".data ∧
      Diagnostics.HasError (runOn (fun _ => false) "projects/my-project/").Diagnostics = true ∧
      Diagnostics.HasError (runOn (fun _ => false)
        "https://www.googleapis.com/compute/v1/projects/my-project/").Diagnostics = true) := by
  have h1 := (C11_prefix_invariance (fun _ => false)
    "projects/my-project/zones/us-central1-c/instances/tf-test-my-resource"
    "https://www.googleapis.com/compute/v1/").1 "tf-test-my-resource" (by decide) (by decide)
  have h2 := (C11_prefix_invariance (fun _ => false) "projects/my-project/"
    "https://www.googleapis.com/compute/v1/").2 (by decide) (by decide)
  exact ⟨⟨by decide, by decide, h1.1.2, h1.2.2⟩, ⟨by decide, by decide, h2.1⟩⟩

/-! ## The early return of `Run` -/

theorem run_eq_runWith (uni : Char → Bool) (req : RunRequest) (resp : RunResponse) :
    Run uni req resp = RunWith GetElement uni req resp := rfl

theorem mem_append_iff (b : List Diagnostic) :
    ∀ (a : Diagnostics) (x : Diagnostic), x ∈ Diagnostics.Append a b ↔ x ∈ a ∨ x ∈ b := by
  induction b with
  | nil => intro a x; simp [Diagnostics.Append]
  | cons d ds ih =>
    intro a x
    rw [Diagnostics.Append, ih]
    by_cases hc : Diagnostics.Contains a d = true
    · rw [if_pos hc]
      have hd : d ∈ a := by
        rw [Diagnostics.Contains, List.any_eq_true] at hc
        obtain ⟨y, hy, hyd⟩ := hc
        simp only [decide_eq_true_eq] at hyd
        exact hyd ▸ hy
      constructor
      · rintro (h | h)
        · exact Or.inl h
        · exact Or.inr (List.mem_cons_of_mem _ h)
      · rintro (h | h)
        · exact Or.inl h
        · rcases List.mem_cons.mp h with h1 | h1
          · exact Or.inl (h1 ▸ hd)
          · exact Or.inr h1
    · rw [if_neg hc]
      simp only [List.mem_append, List.mem_singleton, List.mem_cons]
      tauto

theorem hasError_iff (a : Diagnostics) :
    Diagnostics.HasError a = true ↔ ∃ x ∈ a, x.Severity = Severity.SeverityError := by
  simp [Diagnostics.HasError, List.any_eq_true]

theorem hasError_append (a : Diagnostics) (b : List Diagnostic)
    (h : Diagnostics.HasError b = true) :
    Diagnostics.HasError (Diagnostics.Append a b) = true := by
  obtain ⟨x, hx, hs⟩ := (hasError_iff b).mp h
  exact (hasError_iff _).mpr ⟨x, (mem_append_iff b a x).mpr (Or.inr hx), hs⟩

/-- C12: if loading argument 0 produces an error diagnostic, `Run` returns at
once: the response keeps the result it had, its diagnostics are those it had
together with those of the argument loading and nothing else, and the outcome
is the same whatever function stands in the place of `GetElement`, which
therefore is not called. -/
theorem C12_argument_error_returns (uni : Char → Bool) (req : RunRequest) (resp : RunResponse)
    (herr : Diagnostics.HasError (req.Arguments.GetArgument 0).2 = true) :
    Run uni req resp
      = { Diagnostics := Diagnostics.Append resp.Diagnostics (req.Arguments.GetArgument 0).2,
          Result := resp.Result } ∧
    (Run uni req resp).Result = resp.Result ∧
    (∀ d ∈ (Run uni req resp).Diagnostics,
      d ∈ resp.Diagnostics ∨ d ∈ (req.Arguments.GetArgument 0).2) ∧
    ∀ getElement : String → Regexp → String → String → RunRequest → RunResponse
        → String × RunResponse,
      RunWith getElement uni req resp = Run uni req resp := by
  have hrw : ∀ getElement : String → Regexp → String → String → RunRequest → RunResponse
        → String × RunResponse,
      RunWith getElement uni req resp
        = { Diagnostics := Diagnostics.Append resp.Diagnostics (req.Arguments.GetArgument 0).2,
            Result := resp.Result } := by
    intro getElement
    simp only [RunWith, hasError_append resp.Diagnostics _ herr, if_true]
  have hr := hrw GetElement
  rw [← run_eq_runWith] at hr
  refine ⟨hr, by rw [hr], ?_, fun g => by rw [hrw g, hr]⟩
  intro d hd
  rw [hr] at hd
  exact (mem_append_iff _ _ d).mp hd

/-- A request whose argument loading reports an error, on a fresh response,
through C12: the error is the only diagnostic and the result stays unknown,
although the empty target string has no match. -/
theorem C12_argument_error_returns_witness :
    Run (fun _ => false)
      { Arguments := { GetArgument := fun _ =>
          (none, [{ Severity := Severity.SeverityError, Summary := "Invalid Argument Data Position",
                    Detail := "", FunctionArgument := none }]) } }
      RunResponse.fresh
      = { Diagnostics := [{ Severity := Severity.SeverityError,
                            Summary := "Invalid Argument Data Position",
                            Detail := "", FunctionArgument := none }],
          Result := { value := StringValue.Unknown } } :=
  (C12_argument_error_returns (fun _ => false)
    { Arguments := { GetArgument := fun _ =>
        (none, [{ Severity := Severity.SeverityError, Summary := "Invalid Argument Data Position",
                  Detail := "", FunctionArgument := none }]) } }
    RunResponse.fresh (by decide)).1

/-! ## The template and the capture group -/

theorem groupText_whole (p n : List Char) (c d : Int) :
    groupText (p ++ '/' :: n) [((p.length : Nat) : Int), ((p.length + 1 + n.length : Nat) : Int),
      c, d] 0 = some ('/' :: n) := by
  have hc : (2 * 0 + 1 < ([((p.length : Nat) : Int), ((p.length + 1 + n.length : Nat) : Int),
      c, d] : List Int).length
      ∧ (0 : Int) ≤ ([((p.length : Nat) : Int), ((p.length + 1 + n.length : Nat) : Int),
      c, d] : List Int).getD (2 * 0) (-1)) := by
    refine ⟨by simp, ?_⟩
    simp only [Nat.mul_zero, List.getD_cons_zero]
    exact Int.ofNat_nonneg _
  rw [groupText, if_pos hc]
  simp only [Nat.mul_zero, Nat.zero_add, List.getD_cons_succ, List.getD_cons_zero,
    Int.toNat_ofNat]
  have e : p.length + 1 + n.length - p.length = ('/' :: n).length := by simp; omega
  rw [List.drop_left, e, List.take_length]

theorem extract_lowerName (uni : Char → Bool) :
    extract uni ['r', 'e', 's', 'o', 'u', 'r', 'c', 'e', 'N', 'a', 'm', 'e']
      = some (['r', 'e', 's', 'o', 'u', 'r', 'c', 'e', 'N', 'a', 'm', 'e'], -1, []) := by
  rfl

theorem namedGroupText_lowerName (src : List Char) (mtch : List Int) :
    namedGroupText src mtch "resourceName" ["", "ResourceName"] 0 = [] := by
  have h1 : ¬ ("resourceName" = "") := by decide
  have h2 : ¬ ("resourceName" = "ResourceName") := by decide
  rw [namedGroupText, if_neg h1, namedGroupText, if_neg h2, namedGroupText]

/-- A name that no group carries expands to nothing. -/
theorem expand_lowerName (uni : Char → Bool) (src : List Char) (mtch : List Int) :
    expandString uni ["", "ResourceName"] "" "$resourceName" (String.mk src) mtch = "" := by
  have h : expand uni ["", "ResourceName"] src mtch 14 []
      ['$', 'r', 'e', 's', 'o', 'u', 'r', 'c', 'e', 'N', 'a', 'm', 'e'] = [] := by
    rw [expand]
    simp only [cutDollar, if_true, extract_lowerName]
    have hneg : ¬ ((0 : Int) ≤ -1) := by decide
    have hs : (String.mk ['r', 'e', 's', 'o', 'u', 'r', 'c', 'e', 'N', 'a', 'm', 'e'])
        = "resourceName" := rfl
    simp only [hneg, if_false, hs, namedGroupText_lowerName, List.nil_append]
    rw [expand]
    simp [cutDollar]
  exact congrArg String.mk h

/-- C13: the template `$ResourceName` names the one capture group of the
pattern.  For every input and every match the pattern has in it, the group
`ResourceName` (index 1 of the group names) captured a non-empty text `n`, the
whole match is `/` followed by `n`, and expanding the template against the
match gives exactly `n`: nothing is added and the outcome is not the empty
string, which is what a name carried by no group (here `$resourceName`)
expands to. -/
theorem C13_template_names_group (uni : Char → Bool) (s : String) (m : List Int)
    (hm : m ∈ findAllStringSubmatchIndex resourceNameRegex s (-1)) :
    Regex.subexpNames resourceNameRegex = ["", "ResourceName"] ∧
    ∃ n : String, n ≠ "" ∧
      groupText s.data m 1 = some n.data ∧
      groupText s.data m 0 = some ('/' :: n.data) ∧
      (MustCompile uni resourceNameRegex).ExpandString "" "$ResourceName" s m = n ∧
      (MustCompile uni resourceNameRegex).ExpandString "" "$ResourceName" s m ≠ "" ∧
      (MustCompile uni resourceNameRegex).ExpandString "" "$resourceName" s m = "" := by
  refine ⟨rfl, ?_⟩
  rcases runOn_cases uni s with ⟨_, p, n, hs, hn, _, hf, _⟩ | ⟨_, hf, _⟩
  · rw [hf] at hm
    have hm1 := List.mem_singleton.mp hm
    have hd : s.data = p.data ++ '/' :: n.data := by rw [hs, data_append_slash]
    have hsrc : s = String.mk (p.data ++ '/' :: n.data) := by rw [← hd]
    have hx : (MustCompile uni resourceNameRegex).ExpandString "" "$ResourceName" s m = n := by
      show expandString uni (Regex.subexpNames resourceNameRegex) "" "$ResourceName" s m = n
      rw [subexpNames_resourceName, hsrc, expand_resourceName, hm1, groupText_found]
      rfl
    refine ⟨n, hn, ?_, ?_, hx, ?_, ?_⟩
    · rw [hd, hm1, groupText_found]
    · rw [hd, hm1, groupText_whole]
    · rw [hx]; exact hn
    · show expandString uni (Regex.subexpNames resourceNameRegex) "" "$resourceName" s m = ""
      rw [subexpNames_resourceName, hsrc, expand_lowerName]
  · rw [hf] at hm
    exact absurd hm (List.not_mem_nil m)

/-- The one match of the pattern in the valid id `projects/p/zones/z/instances/my-instance`,
through C13: the template expands to `my-instance`. -/
theorem C13_template_names_group_witness :
    [28, 40, 29, 40] ∈ findAllStringSubmatchIndex resourceNameRegex
      "projects/p/zones/z/instances/my-instance" (-1) ∧
    (MustCompile (fun _ => false) resourceNameRegex).ExpandString "" "$ResourceName"
      "projects/p/zones/z/instances/my-instance" [28, 40, 29, 40] = "my-instance" ∧
    ∃ n : String, n ≠ "" ∧
      groupText "projects/p/zones/z/instances/my-instance".data [28, 40, 29, 40] 1 = some n.data ∧
      groupText "projects/p/zones/z/instances/my-instance".data [28, 40, 29, 40] 0
        = some ('/' :: n.data) ∧
      (MustCompile (fun _ => false) resourceNameRegex).ExpandString "" "$ResourceName"
        "projects/p/zones/z/instances/my-instance" [28, 40, 29, 40] = n ∧
      (MustCompile (fun _ => false) resourceNameRegex).ExpandString "" "$ResourceName"
        "projects/p/zones/z/instances/my-instance" [28, 40, 29, 40] ≠ "" ∧
      (MustCompile (fun _ => false) resourceNameRegex).ExpandString "" "$resourceName"
        "projects/p/zones/z/instances/my-instance" [28, 40, 29, 40] = "" :=
  ⟨by decide, by decide,
    (C13_template_names_group (fun _ => false) "projects/p/zones/z/instances/my-instance"
      [28, 40, 29, 40] (by decide)).2⟩

end Functions
